import Mathlib

/-!
Shallow embedding of the fitness-tracker backend (src/server.ts).

The backend is five Express routes over a better-sqlite3 database:

* module-load initialization (`db.exec`): `CREATE TABLE IF NOT EXISTS` for
  `workouts`, `exercises`, `user_profile`, then
  `INSERT OR IGNORE INTO user_profile (id, ...) VALUES (1, 'Atleta', 75, 175,
  'Ganhar massa muscular')`;
* `GET /api/profile`: `SELECT * FROM user_profile WHERE id = 1`;
* `POST /api/profile`: `UPDATE user_profile SET name=?, weight=?, height=?,
  goal=? WHERE id = 1`, then `res.json(\x7bsuccess: true\x7d)`;
* `GET /api/workouts`: `SELECT * FROM workouts ORDER BY date DESC`;
* `POST /api/workouts`: insert one workout row, then (when `exercises` is an
  array) insert each exercise row in order, each `run` auto-committing
  individually (no transaction);
* `GET /api/stats`: `SELECT date, SUM(calories) FROM workouts WHERE date >=
  date('now','-7 days') GROUP BY date ORDER BY date ASC`.

SQLite values bound from the JSON request bodies are NULL, INTEGER or TEXT
here (`Val`); the claims never exercise REAL or BLOB values, and JS numbers
appearing in the claims are integers, so INTEGER carries them.  JSON response
values additionally contain booleans (`Jval`).  `date('now','-7 days')` is a
request-time constant; it is passed to `computeStats` as the `cutoff`
parameter.  SQLite's `ORDER BY` is implemented by a stable sort over the rows
in table (insertion) order — verified against SQLite itself — which the
embedding mirrors with `List.insertionSort` on a reflexive total order.
-/

/-- A SQLite storage value as produced by binding a JSON request field:
`NULL`, `INTEGER`, or `TEXT`. -/
inductive Val where
  | vnull
  | vint (n : Int)
  | vtext (s : String)
deriving Repr, DecidableEq

/-- A JSON response value (`res.json`): SQLite values plus booleans. -/
inductive Jval where
  | jnull
  | jint (n : Int)
  | jtext (s : String)
  | jbool (b : Bool)
deriving Repr, DecidableEq

/-- Embedding of a storage value into a JSON response value. -/
def Val.toJson : Val → Jval
  | .vnull => .jnull
  | .vint n => .jint n
  | .vtext s => .jtext s

/-- SQLite cross-type ordering rank: NULL < INTEGER < TEXT
(REAL and BLOB do not occur in the embedded store). -/
def Val.rank : Val → Nat
  | .vnull => 0
  | .vint _ => 1
  | .vtext _ => 2

/-- Lexicographic comparison of character lists by codepoint, i.e. the
BINARY collation SQLite applies to TEXT (UTF-8 byte order coincides with
codepoint order). -/
def charListLe : List Char → List Char → Bool
  | [], _ => true
  | _ :: _, [] => false
  | a :: as, b :: bs =>
    if a.toNat < b.toNat then true
    else if b.toNat < a.toNat then false
    else charListLe as bs

/-- SQLite `ORDER BY` comparison (ascending): NULL first, then INTEGERs by
value, then TEXT by BINARY collation. -/
def valLe (a b : Val) : Bool :=
  match a, b with
  | .vint x, .vint y => decide (x ≤ y)
  | .vtext x, .vtext y => charListLe x.data y.data
  | a, b => decide (a.rank ≤ b.rank)

/-- SQLite `>=` in a WHERE clause: three-valued, a comparison with NULL is
NULL and the row is filtered out. -/
def sqlGe (a b : Val) : Bool :=
  a ≠ Val.vnull && b ≠ Val.vnull && valLe b a

/-- A row of the `workouts` table:
`id INTEGER PRIMARY KEY AUTOINCREMENT, name TEXT NOT NULL,
date TEXT NOT NULL, duration INTEGER, calories INTEGER`. -/
structure WorkoutRow where
  id : Nat
  name : Val
  date : Val
  duration : Val
  calories : Val
deriving Repr, DecidableEq

/-- A row of the `exercises` table:
`id INTEGER PRIMARY KEY AUTOINCREMENT, workout_id INTEGER,
name TEXT NOT NULL, sets INTEGER, reps INTEGER, weight REAL`.
`workout_id` is always written from `info.lastInsertRowid`. -/
structure ExerciseRow where
  id : Nat
  workoutId : Nat
  name : Val
  sets : Val
  reps : Val
  weight : Val
deriving Repr, DecidableEq

/-- A row of the `user_profile` table:
`id INTEGER PRIMARY KEY CHECK (id = 1), name TEXT DEFAULT 'User',
weight REAL, height REAL, goal TEXT`. -/
structure ProfileRow where
  id : Nat
  name : Val
  weight : Val
  height : Val
  goal : Val
deriving Repr, DecidableEq

/-- The database state: the three tables plus the AUTOINCREMENT counters
(`sqlite_sequence` high-water marks, so assigned ids are strictly
increasing and never reused). -/
structure DB where
  workouts : List WorkoutRow
  exercises : List ExerciseRow
  userProfile : List ProfileRow
  nextWorkoutId : Nat
  nextExerciseId : Nat
deriving Repr, DecidableEq

/-- A freshly created database file: empty tables, first AUTOINCREMENT id 1. -/
def DB.empty : DB := ⟨[], [], [], 1, 1⟩

/-- The seeded default profile row:
`(1, 'Atleta', 75, 175, 'Ganhar massa muscular')`. -/
def defaultProfile : ProfileRow :=
  ⟨1, Val.vtext "Atleta", Val.vint 75, Val.vint 175,
    Val.vtext "Ganhar massa muscular"⟩

/-- The module-load `db.exec` block: `CREATE TABLE IF NOT EXISTS` (tables are
kept as they are) followed by `INSERT OR IGNORE INTO user_profile ... VALUES
(1, ...)`: the insert is ignored exactly when a row with primary key 1
already exists. -/
def initDatabase (db : DB) : DB :=
  if db.userProfile.any (fun p => p.id = 1) then db
  else { db with userProfile := db.userProfile ++ [defaultProfile] }

/-- `GET /api/profile` store read: `SELECT * FROM user_profile WHERE id = 1`
(`.get()` returns the first matching row or `undefined`). -/
def getProfile (db : DB) : Option ProfileRow :=
  db.userProfile.find? (fun p => p.id = 1)

/-- The JSON object `res.json(profile)` serializes for a profile row:
`SELECT *` yields all five columns in schema order. -/
def profileJson (p : ProfileRow) : List (String × Jval) :=
  [("id", Jval.jint p.id), ("name", p.name.toJson), ("weight", p.weight.toJson),
    ("height", p.height.toJson), ("goal", p.goal.toJson)]

/-- Full response of `GET /api/profile`. -/
def getProfileResponse (db : DB) : Option (List (String × Jval)) :=
  (getProfile db).map profileJson

/-- `POST /api/profile`:
`UPDATE user_profile SET name=?, weight=?, height=?, goal=? WHERE id = 1`. -/
def updateProfile (db : DB) (name weight height goal : Val) : DB :=
  { db with
    userProfile := db.userProfile.map (fun p =>
      if p.id = 1 then { p with name := name, weight := weight,
                                height := height, goal := goal }
      else p) }

/-- `POST /api/profile` always responds `res.json(\x7bsuccess: true\x7d)`. -/
def updateProfileResponse : List (String × Jval) := [("success", Jval.jbool true)]

/-- Workout list order: `ORDER BY date DESC`, i.e. row `a` precedes row `b`
when `a.date ≥ b.date` in the SQLite ordering. -/
def byDateDesc (a b : WorkoutRow) : Prop := valLe b.date a.date = true

instance : DecidableRel byDateDesc := fun a b => by
  unfold byDateDesc; infer_instance

/-- `GET /api/workouts`: `SELECT * FROM workouts ORDER BY date DESC`, a
stable sort of the table (insertion-ordered) rows. -/
def listWorkouts (db : DB) : List WorkoutRow :=
  db.workouts.insertionSort byDateDesc

/-- One element of the request body's `exercises` array. -/
structure ExInput where
  name : Val
  sets : Val
  reps : Val
  weight : Val
deriving Repr, DecidableEq

/-- `INSERT INTO workouts (name, date, duration, calories) VALUES (?,?,?,?)`.
Fails (constraint violation, nothing written) when a NOT NULL column
receives NULL; an absent JSON field also makes `.run` throw before writing,
which the embedding folds into the NULL case. -/
def insertWorkout (db : DB) (name date duration calories : Val) :
    Except String (Nat × DB) :=
  if name = Val.vnull then .error "NOT NULL constraint failed: workouts.name"
  else if date = Val.vnull then .error "NOT NULL constraint failed: workouts.date"
  else
    let wid := db.nextWorkoutId
    .ok (wid, { db with
      workouts := db.workouts ++ [⟨wid, name, date, duration, calories⟩],
      nextWorkoutId := wid + 1 })

/-- `INSERT INTO exercises (workout_id, name, sets, reps, weight) VALUES
(?,?,?,?,?)`: fails when `name` is NULL (`exercises.name` is NOT NULL). -/
def insertExercise (db : DB) (wid : Nat) (ex : ExInput) : Except String DB :=
  if ex.name = Val.vnull then .error "NOT NULL constraint failed: exercises.name"
  else .ok { db with
    exercises := db.exercises ++
      [⟨db.nextExerciseId, wid, ex.name, ex.sets, ex.reps, ex.weight⟩],
    nextExerciseId := db.nextExerciseId + 1 }

/-- The `for (const ex of exercises)` insert loop.  Each `run` auto-commits
on its own (there is no transaction), so on a failure the rows already
inserted stay; the returned state is the state at the moment the loop
threw. -/
def insertExercises (db : DB) (wid : Nat) :
    List ExInput → Except String Unit × DB
  | [] => (.ok (), db)
  | ex :: rest =>
    match insertExercise db wid ex with
    | .error e => (.error e, db)
    | .ok db2 => insertExercises db2 wid rest

/-- `POST /api/workouts`: insert the workout row, read `lastInsertRowid`,
then — only `if (exercises && Array.isArray(exercises))`, modelled by
`some` — run the exercise insert loop.  `none` covers an absent or
non-array `exercises` field.  On success the response is
`res.json(\x7bid: workoutId\x7d)`, modelled by `.ok wid`; a thrown storage
error propagates (`.error`), leaving whatever each auto-committed `run`
already wrote. -/
def createWorkout (db : DB) (name date duration calories : Val)
    (exercises : Option (List ExInput)) : Except String Nat × DB :=
  match insertWorkout db name date duration calories with
  | .error e => (.error e, db)
  | .ok (wid, db1) =>
    match exercises with
    | none => (.ok wid, db1)
    | some exs =>
      match insertExercises db1 wid exs with
      | (.error e, db2) => (.error e, db2)
      | (.ok _, db2) => (.ok wid, db2)

/-- The integer value of a `calories` cell, if any: `SUM` skips NULLs (the
claims only store INTEGER calories, so TEXT numeric coercion is not
exercised and is likewise skipped). -/
def calOf (w : WorkoutRow) : Option Int :=
  match w.calories with
  | .vint n => some n
  | _ => none

/-- Integer total of the calories of a list of rows, NULLs skipped. -/
def calSum (rows : List WorkoutRow) : Int :=
  (rows.filterMap calOf).sum

/-- SQL `SUM(calories)` over a group: NULL when no non-NULL value occurs,
otherwise the integer total. -/
def sumAgg (rows : List WorkoutRow) : Val :=
  if (rows.filterMap calOf).isEmpty then Val.vnull else Val.vint (calSum rows)

/-- Ascending `Val` order as a relation, for `ORDER BY date ASC`. -/
def valAsc (a b : Val) : Prop := valLe a b = true

instance : DecidableRel valAsc := fun a b => by
  unfold valAsc; infer_instance

/-- `GET /api/stats`:
`SELECT date, SUM(calories) FROM workouts WHERE date >= date('now','-7 days')
GROUP BY date ORDER BY date ASC`.  `cutoff` is the TEXT value of
`date('now','-7 days')`, i.e. the calendar date seven days before today.
The output has one `(date, SUM)` pair per distinct date among the rows
passing the WHERE filter, ordered ascending. -/
def computeStats (db : DB) (cutoff : Val) : List (Val × Val) :=
  let rows := db.workouts.filter (fun w => sqlGe w.date cutoff)
  let dates := (rows.map (fun w => w.date)).dedup.insertionSort valAsc
  dates.map (fun d => (d, sumAgg (rows.filter (fun w => w.date = d))))

/-- A mutating API request: `POST /api/profile` or `POST /api/workouts`
(the GET routes do not write). -/
inductive Op where
  | update (name weight height goal : Val)
  | create (name date duration calories : Val) (exercises : Option (List ExInput))

/-- Effect of one mutating request on the store. -/
def applyOp (db : DB) : Op → DB
  | .update n w h g => updateProfile db n w h g
  | .create n d du c exs => (createWorkout db n d du c exs).2

/-- States the server can be in: the module-load initialization runs on the
fresh database file before the routes are served, then any sequence of
mutating requests. -/
def Reachable (db : DB) : Prop :=
  ∃ ops : List Op, db = ops.foldl applyOp (initDatabase DB.empty)

/-- The `user_profile` table invariant: a single row, with id 1 (the schema's
`CHECK (id = 1)` plus the primary key admits no other shape once seeded). -/
def profileInv (db : DB) : Prop :=
  db.userProfile.length = 1 ∧ ∀ p ∈ db.userProfile, p.id = 1

/-- AUTOINCREMENT discipline: already-assigned identifiers are below the
counters. -/
def idsWF (db : DB) : Prop :=
  (∀ w ∈ db.workouts, w.id < db.nextWorkoutId) ∧
  (∀ e ∈ db.exercises, e.workoutId < db.nextWorkoutId)

/-- The integer a stats entry contributes when summed again (NULL counts 0,
as SQL aggregation skips it). -/
def toCal : Val → Int
  | .vint n => n
  | _ => 0

/-- A store with two workouts sharing the date 2024-01-01, inserted as id 1
then id 2. -/
def dbTie : DB :=
  (createWorkout ((createWorkout (initDatabase DB.empty) (Val.vtext "A")
      (Val.vtext "2024-01-01") (Val.vint 30) (Val.vint 200) none).2)
    (Val.vtext "B") (Val.vtext "2024-01-01") (Val.vint 40) (Val.vint 250)
    none).2

/-- A store with three workouts dated 2024-01-01, 2024-01-03, 2024-01-02,
in that insertion order (the claim's example). -/
def dbThreeDates : DB :=
  (createWorkout ((createWorkout ((createWorkout (initDatabase DB.empty)
        (Val.vtext "A") (Val.vtext "2024-01-01") (Val.vint 30) (Val.vint 200)
        none).2)
      (Val.vtext "B") (Val.vtext "2024-01-03") (Val.vint 30) (Val.vint 200)
      none).2)
    (Val.vtext "C") (Val.vtext "2024-01-02") (Val.vint 30) (Val.vint 200)
    none).2

/-! ### Properties of the SQLite value ordering -/

theorem charListLe_refl : ∀ l : List Char, charListLe l l = true
  | [] => rfl
  | a :: as => by
    simp [charListLe, charListLe_refl as]

theorem charListLe_total : ∀ xs ys : List Char,
    charListLe xs ys = true ∨ charListLe ys xs = true
  | [], _ => Or.inl rfl
  | _ :: _, [] => Or.inr rfl
  | a :: as, b :: bs => by
    rcases Nat.lt_trichotomy a.toNat b.toNat with h | h | h
    · left
      simp [charListLe, h]
    · have hab : ¬ a.toNat < b.toNat := by omega
      have hba : ¬ b.toNat < a.toNat := by omega
      rcases charListLe_total as bs with hc | hc
      · left
        simp [charListLe, hab, hba, hc]
      · right
        simp [charListLe, hab, hba, hc]
    · right
      simp [charListLe, h]

theorem charListLe_trans : ∀ xs ys zs : List Char,
    charListLe xs ys = true → charListLe ys zs = true → charListLe xs zs = true
  | [], _, _, _, _ => rfl
  | _ :: _, [], _, h1, _ => by simp [charListLe] at h1
  | _ :: _, _ :: _, [], _, h2 => by simp [charListLe] at h2
  | a :: as, b :: bs, c :: cs, h1, h2 => by
    simp only [charListLe] at h1 h2 ⊢
    by_cases hba : b.toNat < a.toNat
    · rw [if_neg (by omega), if_pos hba] at h1
      exact absurd h1 (by simp)
    · by_cases hcb : c.toNat < b.toNat
      · rw [if_neg (by omega), if_pos hcb] at h2
        exact absurd h2 (by simp)
      · by_cases hac : a.toNat < c.toNat
        · rw [if_pos hac]
        · have hab : ¬ a.toNat < b.toNat := by omega
          have hbc : ¬ b.toNat < c.toNat := by omega
          rw [if_neg hac, if_neg (by omega)]
          rw [if_neg hab, if_neg hba] at h1
          rw [if_neg hbc, if_neg hcb] at h2
          exact charListLe_trans as bs cs h1 h2

theorem valLe_refl (a : Val) : valLe a a = true := by
  cases a <;> simp [valLe, Val.rank, charListLe_refl]

theorem valLe_total (a b : Val) : valLe a b = true ∨ valLe b a = true := by
  cases a <;> cases b <;>
    simp only [valLe, Val.rank, decide_eq_true_eq] <;>
    first
      | omega
      | exact Int.le_total _ _
      | exact charListLe_total _ _

theorem valLe_trans {a b c : Val} (h1 : valLe a b = true) (h2 : valLe b c = true) :
    valLe a c = true := by
  cases a <;> cases b <;> cases c <;>
    simp only [valLe, Val.rank, decide_eq_true_eq] at h1 h2 ⊢ <;>
    first
      | omega
      | exact charListLe_trans _ _ _ h1 h2

instance : IsTotal Val valAsc := ⟨fun a b => valLe_total a b⟩

instance : IsTrans Val valAsc := ⟨fun _ _ _ h1 h2 => valLe_trans h1 h2⟩

instance : IsTotal WorkoutRow byDateDesc := ⟨fun a b => valLe_total b.date a.date⟩

instance : IsTrans WorkoutRow byDateDesc := ⟨fun _ _ _ h1 h2 => valLe_trans h2 h1⟩

/-! ### Frame lemmas: which tables each statement touches -/

theorem updateProfile_workouts (db : DB) (n w h g : Val) :
    (updateProfile db n w h g).workouts = db.workouts := rfl

theorem updateProfile_exercises (db : DB) (n w h g : Val) :
    (updateProfile db n w h g).exercises = db.exercises := rfl

theorem insertExercises_workouts (wid : Nat) :
    ∀ (exs : List ExInput) (db : DB),
      ((insertExercises db wid exs).2).workouts = db.workouts
  | [], _ => rfl
  | ex :: rest, db => by
    unfold insertExercises insertExercise
    by_cases h : ex.name = Val.vnull
    · simp [h]
    · simp [h, insertExercises_workouts wid rest]

theorem insertExercises_userProfile (wid : Nat) :
    ∀ (exs : List ExInput) (db : DB),
      ((insertExercises db wid exs).2).userProfile = db.userProfile
  | [], _ => rfl
  | ex :: rest, db => by
    unfold insertExercises insertExercise
    by_cases h : ex.name = Val.vnull
    · simp [h]
    · simp [h, insertExercises_userProfile wid rest]

theorem insertExercises_nextWorkoutId (wid : Nat) :
    ∀ (exs : List ExInput) (db : DB),
      ((insertExercises db wid exs).2).nextWorkoutId = db.nextWorkoutId
  | [], _ => rfl
  | ex :: rest, db => by
    unfold insertExercises insertExercise
    by_cases h : ex.name = Val.vnull
    · simp [h]
    · simp [h, insertExercises_nextWorkoutId wid rest]

theorem createWorkout_userProfile (db : DB) (n d du c : Val)
    (exs : Option (List ExInput)) :
    ((createWorkout db n d du c exs).2).userProfile = db.userProfile := by
  unfold createWorkout insertWorkout
  by_cases h1 : n = Val.vnull
  · simp [h1]
  · by_cases h2 : d = Val.vnull
    · simp [h1, h2]
    · cases exs with
      | none => simp [h1, h2]
      | some l =>
        simp only [h1, h2, if_false]
        rcases hE : insertExercises
            { db with
              workouts := db.workouts ++
                [⟨db.nextWorkoutId, n, d, du, c⟩],
              nextWorkoutId := db.nextWorkoutId + 1 } db.nextWorkoutId l
          with ⟨r, db2⟩
        have hU := insertExercises_userProfile db.nextWorkoutId l
            { db with
              workouts := db.workouts ++
                [⟨db.nextWorkoutId, n, d, du, c⟩],
              nextWorkoutId := db.nextWorkoutId + 1 }
        rw [hE] at hU
        cases r <;> simpa using hU

/-! ### Behaviour of the exercise insert loop -/

theorem insertExercise_ok {ex : ExInput} (db : DB) (wid : Nat)
    (h : ex.name ≠ Val.vnull) :
    insertExercise db wid ex = .ok { db with
      exercises := db.exercises ++
        [⟨db.nextExerciseId, wid, ex.name, ex.sets, ex.reps, ex.weight⟩],
      nextExerciseId := db.nextExerciseId + 1 } := by
  simp [insertExercise, h]

theorem insertExercise_err {ex : ExInput} (db : DB) (wid : Nat)
    (h : ex.name = Val.vnull) :
    insertExercise db wid ex = .error "NOT NULL constraint failed: exercises.name" := by
  simp [insertExercise, h]

/-- On whatever path the loop takes, the exercises table only grows at the
end, every appended row carries the given `workout_id`, and the loop never
touches pre-existing rows. -/
theorem insertExercises_suffix (wid : Nat) :
    ∀ (exs : List ExInput) (db : DB),
      ∃ news, ((insertExercises db wid exs).2).exercises = db.exercises ++ news ∧
        ∀ e ∈ news, e.workoutId = wid
  | [], db => ⟨[], by simp [insertExercises]⟩
  | ex :: rest, db => by
    unfold insertExercises
    by_cases h : ex.name = Val.vnull
    · rw [insertExercise_err db wid h]
      exact ⟨[], by simp⟩
    · rw [insertExercise_ok db wid h]
      obtain ⟨news, hnews, hwid⟩ := insertExercises_suffix wid rest
        { db with
          exercises := db.exercises ++
            [⟨db.nextExerciseId, wid, ex.name, ex.sets, ex.reps, ex.weight⟩],
          nextExerciseId := db.nextExerciseId + 1 }
      refine ⟨⟨db.nextExerciseId, wid, ex.name, ex.sets, ex.reps, ex.weight⟩ :: news, ?_, ?_⟩
      · simpa using hnews
      · intro e he
        rcases List.mem_cons.mp he with rfl | he2
        · rfl
        · exact hwid e he2

/-- When every supplied exercise name is non-NULL the loop completes. -/
theorem insertExercises_ok (wid : Nat) :
    ∀ (exs : List ExInput) (db : DB), (∀ ex ∈ exs, ex.name ≠ Val.vnull) →
      (insertExercises db wid exs).1 = .ok ()
  | [], _, _ => rfl
  | ex :: rest, db, hall => by
    unfold insertExercises
    rw [insertExercise_ok db wid (hall ex (List.mem_cons_self _ _))]
    exact insertExercises_ok wid rest _ (fun e he => hall e (List.mem_cons_of_mem _ he))

/-- When every supplied exercise name is non-NULL, the appended rows carry
exactly the submitted field values, in submission order. -/
theorem insertExercises_rows (wid : Nat) :
    ∀ (exs : List ExInput) (db : DB), (∀ ex ∈ exs, ex.name ≠ Val.vnull) →
      ∃ news, ((insertExercises db wid exs).2).exercises = db.exercises ++ news ∧
        news.map (fun e => (e.workoutId, e.name, e.sets, e.reps, e.weight))
          = exs.map (fun ex => (wid, ex.name, ex.sets, ex.reps, ex.weight))
  | [], db, _ => ⟨[], by simp [insertExercises]⟩
  | ex :: rest, db, hall => by
    unfold insertExercises
    rw [insertExercise_ok db wid (hall ex (List.mem_cons_self _ _))]
    obtain ⟨news, hnews, hmap⟩ := insertExercises_rows wid rest
        { db with
          exercises := db.exercises ++
            [⟨db.nextExerciseId, wid, ex.name, ex.sets, ex.reps, ex.weight⟩],
          nextExerciseId := db.nextExerciseId + 1 }
        (fun e he => hall e (List.mem_cons_of_mem _ he))
    refine ⟨⟨db.nextExerciseId, wid, ex.name, ex.sets, ex.reps, ex.weight⟩ :: news, ?_, ?_⟩
    · simpa using hnews
    · simpa using hmap

/-- When some supplied exercise name is NULL the loop throws. -/
theorem insertExercises_error (wid : Nat) :
    ∀ (exs : List ExInput) (db : DB), (∃ ex ∈ exs, ex.name = Val.vnull) →
      ∃ e, (insertExercises db wid exs).1 = .error e
  | [], _, h => absurd h (by simp)
  | ex :: rest, db, h => by
    unfold insertExercises
    by_cases hx : ex.name = Val.vnull
    · rw [insertExercise_err db wid hx]
      exact ⟨"NOT NULL constraint failed: exercises.name", rfl⟩
    · rw [insertExercise_ok db wid hx]
      obtain ⟨w, hw, hwnull⟩ := h
      rcases List.mem_cons.mp hw with rfl | hw2
      · exact absurd hwnull hx
      · exact insertExercises_error wid rest _ ⟨w, hw2, hwnull⟩

/-! ### Store invariants over reachable states -/

theorem profileInv_applyOp {db : DB} (h : profileInv db) (op : Op) :
    profileInv (applyOp db op) := by
  obtain ⟨hlen, hid⟩ := h
  cases op with
  | update n w hh g =>
    refine ⟨by simpa [applyOp, updateProfile] using hlen, ?_⟩
    intro p hp
    simp only [applyOp, updateProfile, List.mem_map] at hp
    obtain ⟨q, hq, rfl⟩ := hp
    by_cases h1 : q.id = 1 <;> simp [h1, hid q hq]
  | create n d du c exs =>
    have hF := createWorkout_userProfile db n d du c exs
    simp only [applyOp]
    exact ⟨by rw [hF]; exact hlen, by rw [hF]; exact hid⟩

theorem idsWF_applyOp {db : DB} (h : idsWF db) (op : Op) : idsWF (applyOp db op) := by
  obtain ⟨hw, he⟩ := h
  cases op with
  | update n w hh g => exact ⟨hw, he⟩
  | create n d du c exs =>
    simp only [applyOp, createWorkout, insertWorkout]
    by_cases h1 : n = Val.vnull
    · simp only [h1, if_true]
      exact ⟨hw, he⟩
    · by_cases h2 : d = Val.vnull
      · simp only [h1, h2, if_false, if_true]
        exact ⟨hw, he⟩
      · simp only [h1, h2, if_false]
        cases exs with
        | none =>
          refine ⟨?_, fun e hee => Nat.lt_succ_of_lt (he e hee)⟩
          intro w hww
          rcases List.mem_append.mp hww with hl | hr
          · exact Nat.lt_succ_of_lt (hw w hl)
          · simp only [List.mem_singleton] at hr
            subst hr
            exact Nat.lt_succ_self _
        | some l =>
          set db1 : DB :=
            { db with
              workouts := db.workouts ++
                [⟨db.nextWorkoutId, n, d, du, c⟩],
              nextWorkoutId := db.nextWorkoutId + 1 } with hdb1
          rcases hE : insertExercises db1 db.nextWorkoutId l with ⟨r, db2⟩
          have hWk := insertExercises_workouts db.nextWorkoutId l db1
          have hNx := insertExercises_nextWorkoutId db.nextWorkoutId l db1
          obtain ⟨news, hnews, hwid⟩ := insertExercises_suffix db.nextWorkoutId l db1
          rw [hE] at hWk hNx hnews
          have hgoal : idsWF db2 := by
            refine ⟨?_, ?_⟩
            · intro w hww
              rw [hWk] at hww
              rw [hNx]
              simp only [hdb1] at hww ⊢
              rcases List.mem_append.mp hww with hl2 | hr2
              · exact Nat.lt_succ_of_lt (hw w hl2)
              · simp only [List.mem_singleton] at hr2
                subst hr2
                exact Nat.lt_succ_self _
            · intro e hee
              rw [hnews] at hee
              rw [hNx]
              simp only [hdb1] at hee ⊢
              rcases List.mem_append.mp hee with hl2 | hr2
              · exact Nat.lt_succ_of_lt (he e hl2)
              · rw [hwid e hr2]
                exact Nat.lt_succ_self _
          cases r <;> simp only [hE] <;> exact hgoal

theorem inv_foldl (ops : List Op) (db0 : DB)
    (h : profileInv db0 ∧ idsWF db0) :
    profileInv (ops.foldl applyOp db0) ∧ idsWF (ops.foldl applyOp db0) := by
  induction ops generalizing db0 with
  | nil => exact h
  | cons op rest ih =>
    exact ih _ ⟨profileInv_applyOp h.1 op, idsWF_applyOp h.2 op⟩

theorem init_profileInv : profileInv (initDatabase DB.empty) := by
  constructor
  · rfl
  · intro p hp
    simp only [initDatabase, DB.empty] at hp
    simp only [List.any_nil, Bool.false_eq_true, if_false, List.nil_append,
      List.mem_singleton] at hp
    simp [hp, defaultProfile]

theorem init_idsWF : idsWF (initDatabase DB.empty) := by
  constructor <;> intro x hx <;> simp [initDatabase, DB.empty] at hx

theorem reachable_inv {db : DB} (h : Reachable db) : profileInv db ∧ idsWF db := by
  obtain ⟨ops, rfl⟩ := h
  exact inv_foldl ops _ ⟨init_profileInv, init_idsWF⟩

/-! ### Claim C3: the singleton profile -/

/-- Claim C3: initialization idempotently creates the schema and seeds the
default profile (name "Atleta", weight 75, height 175, goal "Ganhar massa
muscular") only if no profile exists; running it a second time leaves
exactly one unchanged Profile row; and every reachable state has exactly
one Profile row (no operation deletes or duplicates it — updateProfile
only updates in place). -/
theorem profile_singleton_invariant :
    (∀ db : DB, initDatabase (initDatabase db) = initDatabase db) ∧
    (∀ db : DB, (∃ p ∈ db.userProfile, p.id = 1) → initDatabase db = db) ∧
    ((initDatabase DB.empty).userProfile = [defaultProfile]) ∧
    (∀ db : DB, Reachable db →
      db.userProfile.length = 1 ∧ ∀ p ∈ db.userProfile, p.id = 1) := by
  refine ⟨?_, ?_, rfl, ?_⟩
  · intro db
    unfold initDatabase
    by_cases h : db.userProfile.any (fun p => p.id = 1)
    · simp [h]
    · simp [h, defaultProfile]
  · rintro db ⟨p, hp, hid⟩
    unfold initDatabase
    rw [if_pos (List.any_eq_true.mpr ⟨p, hp, by simp [hid]⟩)]
  · intro db h
    exact (reachable_inv h).1

/-- Witness for C3 at concrete states: double initialization of a fresh
store equals single initialization, and the initialized store holds exactly
one profile row. -/
theorem profile_singleton_invariant_witness :
    initDatabase (initDatabase DB.empty) = initDatabase DB.empty ∧
    (initDatabase DB.empty).userProfile.length = 1 :=
  ⟨profile_singleton_invariant.2.1 (initDatabase DB.empty)
      ⟨defaultProfile, by decide, rfl⟩,
   (profile_singleton_invariant.2.2.2 (initDatabase DB.empty) ⟨[], rfl⟩).1⟩

/-! ### Claim C7: profile update overwrites all four fields -/

/-- Claim C7: updateProfile overwrites all four fields of the singleton
profile with the supplied values (no partial update, no range validation —
the weight argument below is arbitrary, including negatives), responds
with success true, and a subsequent getProfile returns exactly the four
submitted values. -/
theorem updateProfile_overwrites (db : DB) (p : ProfileRow) (n w h g : Val)
    (hp : db.userProfile = [p]) (hid : p.id = 1) :
    updateProfileResponse = [("success", Jval.jbool true)] ∧
    getProfile (updateProfile db n w h g) = some ⟨1, n, w, h, g⟩ := by
  refine ⟨rfl, ?_⟩
  simp [getProfile, updateProfile, hp, hid, List.find?]

/-- Witness for C7: updating the freshly initialized store with name "Ana",
weight −5 (negative accepted), height 165, goal "Perder peso" makes
getProfile return exactly those values. -/
theorem updateProfile_overwrites_witness :
    updateProfileResponse = [("success", Jval.jbool true)] ∧
    getProfile (updateProfile (initDatabase DB.empty) (Val.vtext "Ana")
        (Val.vint (-5)) (Val.vint 165) (Val.vtext "Perder peso"))
      = some ⟨1, Val.vtext "Ana", Val.vint (-5), Val.vint 165,
          Val.vtext "Perder peso"⟩ :=
  updateProfile_overwrites (initDatabase DB.empty) defaultProfile _ _ _ _ rfl rfl

/-! ### Claim C8: the shape of the profile response -/

/-- Counterexample to C8: on the freshly initialized store the
`GET /api/profile` response (built by `SELECT *`) carries the key "id" in
addition to the four claimed keys, so it does not have exactly the fields
name, weight, height, goal. -/
theorem getProfile_keys_counterexample :
    getProfileResponse (initDatabase DB.empty) = some (profileJson defaultProfile) ∧
    (profileJson defaultProfile).map Prod.fst
      = ["id", "name", "weight", "height", "goal"] ∧
    "id" ∉ (["name", "weight", "height", "goal"] : List String) := by
  exact ⟨rfl, rfl, by decide⟩

/-- Claim C8 as amended: getProfile returns the singleton profile as a JSON
object with exactly the five fields id, name, weight, height, goal, in that
order (the `SELECT *` includes the primary key). -/
theorem getProfile_response_keys (db : DB) (js : List (String × Jval))
    (h : getProfileResponse db = some js) :
    js.map Prod.fst = ["id", "name", "weight", "height", "goal"] := by
  unfold getProfileResponse at h
  cases hf : getProfile db with
  | none => rw [hf] at h; exact absurd h (by simp)
  | some p =>
    rw [hf] at h
    simp only [Option.map_some', Option.some.injEq] at h
    subst h
    rfl

/-- Witness for C8 (amended) at the freshly initialized store. -/
theorem getProfile_response_keys_witness :
    (profileJson defaultProfile).map Prod.fst
      = ["id", "name", "weight", "height", "goal"] :=
  getProfile_response_keys (initDatabase DB.empty) (profileJson defaultProfile) rfl

/-! ### Claim C9: NULL workout name is rejected, empty string accepted -/

/-- Claim C9: a createWorkout whose name is NULL (or absent, which throws
before binding) fails with the NOT NULL storage error and leaves the store
completely unchanged — no Workout row and no Exercise row is created — while
an empty-string name is accepted: the insert succeeds and appends exactly
the submitted row. -/
theorem createWorkout_null_name (db : DB) (d du c : Val)
    (exs : Option (List ExInput)) :
    createWorkout db Val.vnull d du c exs
      = (.error "NOT NULL constraint failed: workouts.name", db) ∧
    (d ≠ Val.vnull →
      createWorkout db (Val.vtext "") d du c none
        = (.ok db.nextWorkoutId,
           { db with
             workouts := db.workouts ++
               [⟨db.nextWorkoutId, Val.vtext "", d, du, c⟩],
             nextWorkoutId := db.nextWorkoutId + 1 })) := by
  constructor
  · rfl
  · intro hd
    unfold createWorkout insertWorkout
    rw [if_neg (by simp), if_neg hd]

/-- Witness for C9: a NULL name on the initialized store errors and changes
nothing; the same request with an empty-string name succeeds. -/
theorem createWorkout_null_name_witness :
    createWorkout (initDatabase DB.empty) Val.vnull (Val.vtext "2024-05-05")
        (Val.vint 20) (Val.vint 100) none
      = (.error "NOT NULL constraint failed: workouts.name", initDatabase DB.empty) ∧
    createWorkout (initDatabase DB.empty) (Val.vtext "") (Val.vtext "2024-05-05")
        (Val.vint 20) (Val.vint 100) none
      = (.ok (initDatabase DB.empty).nextWorkoutId,
         { initDatabase DB.empty with
           workouts := (initDatabase DB.empty).workouts ++
             [⟨(initDatabase DB.empty).nextWorkoutId, Val.vtext "",
               Val.vtext "2024-05-05", Val.vint 20, Val.vint 100⟩],
           nextWorkoutId := (initDatabase DB.empty).nextWorkoutId + 1 }) :=
  ⟨(createWorkout_null_name (initDatabase DB.empty) (Val.vtext "2024-05-05")
      (Val.vint 20) (Val.vint 100) none).1,
   (createWorkout_null_name (initDatabase DB.empty) (Val.vtext "2024-05-05")
      (Val.vint 20) (Val.vint 100) none).2 (by simp)⟩

/-! ### Claim C10: the two mutations touch disjoint tables -/

/-- Claim C10: updateProfile leaves the workouts and exercises tables
unchanged (row for row), and createWorkout — on every path, success or
failure — leaves the singleton profile table unchanged. -/
theorem mutations_frame_disjoint :
    (∀ (db : DB) (n w h g : Val),
      (updateProfile db n w h g).workouts = db.workouts ∧
      (updateProfile db n w h g).exercises = db.exercises) ∧
    (∀ (db : DB) (n d du c : Val) (exs : Option (List ExInput)),
      ((createWorkout db n d du c exs).2).userProfile = db.userProfile) :=
  ⟨fun _ _ _ _ _ => ⟨rfl, rfl⟩,
   fun db n d du c exs => createWorkout_userProfile db n d du c exs⟩

/-! ### Claim C2: createWorkout is not atomic -/

/-- Counterexample to C2: on the freshly initialized store, a createWorkout
whose single exercise has a NULL name throws during the exercise insert —
after the workout insert already auto-committed — and the workout row is
still visible afterwards: no rollback happens. -/
theorem createWorkout_rollback_counterexample :
    (createWorkout (initDatabase DB.empty) (Val.vtext "Treino A")
        (Val.vtext "2024-01-01") (Val.vint 30) (Val.vint 200)
        (some [⟨Val.vnull, Val.vint 3, Val.vint 12, Val.vint 50⟩])).1
      = .error "NOT NULL constraint failed: exercises.name" ∧
    ((createWorkout (initDatabase DB.empty) (Val.vtext "Treino A")
        (Val.vtext "2024-01-01") (Val.vint 30) (Val.vint 200)
        (some [⟨Val.vnull, Val.vint 3, Val.vint 12, Val.vint 50⟩])).2).workouts
      = [⟨1, Val.vtext "Treino A", Val.vtext "2024-01-01",
          Val.vint 30, Val.vint 200⟩] :=
  ⟨rfl, rfl⟩

/-- Claim C2 as amended: createWorkout is not atomic.  Each insert commits
individually, so when a storage failure occurs during an Exercise insert
(here: some supplied exercise name is NULL) the operation reports the
error, but the already-inserted Workout row remains visible in the store —
nothing is rolled back. -/
theorem createWorkout_not_atomic (db : DB) (n d du c : Val) (exs : List ExInput)
    (hn : n ≠ Val.vnull) (hd : d ≠ Val.vnull)
    (hfail : ∃ ex ∈ exs, ex.name = Val.vnull) :
    (∃ e, (createWorkout db n d du c (some exs)).1 = .error e) ∧
    (⟨db.nextWorkoutId, n, d, du, c⟩ : WorkoutRow)
      ∈ ((createWorkout db n d du c (some exs)).2).workouts := by
  unfold createWorkout insertWorkout
  rw [if_neg hn, if_neg hd]
  rcases hE : insertExercises
      { db with
        workouts := db.workouts ++ [⟨db.nextWorkoutId, n, d, du, c⟩],
        nextWorkoutId := db.nextWorkoutId + 1 } db.nextWorkoutId exs
    with ⟨r, db2⟩
  obtain ⟨e, he⟩ := insertExercises_error db.nextWorkoutId exs
      { db with
        workouts := db.workouts ++ [⟨db.nextWorkoutId, n, d, du, c⟩],
        nextWorkoutId := db.nextWorkoutId + 1 } hfail
  have hW := insertExercises_workouts db.nextWorkoutId exs
      { db with
        workouts := db.workouts ++ [⟨db.nextWorkoutId, n, d, du, c⟩],
        nextWorkoutId := db.nextWorkoutId + 1 }
  rw [hE] at he hW
  simp only at he
  subst he
  constructor
  · exact ⟨e, by simp [hE]⟩
  · simp only [hE]
    rw [hW]
    exact List.mem_append_right _ (List.mem_singleton_self _)

/-- Witness for C2 (amended): the concrete failing insert from the
counterexample, obtained through the general theorem. -/
theorem createWorkout_not_atomic_witness :
    (∃ e, (createWorkout (initDatabase DB.empty) (Val.vtext "Treino B")
        (Val.vtext "2024-03-03") (Val.vint 30) (Val.vint 200)
        (some [⟨Val.vnull, Val.vint 3, Val.vint 12, Val.vint 50⟩])).1 = .error e) ∧
    (⟨(initDatabase DB.empty).nextWorkoutId, Val.vtext "Treino B",
        Val.vtext "2024-03-03", Val.vint 30, Val.vint 200⟩ : WorkoutRow)
      ∈ ((createWorkout (initDatabase DB.empty) (Val.vtext "Treino B")
        (Val.vtext "2024-03-03") (Val.vint 30) (Val.vint 200)
        (some [⟨Val.vnull, Val.vint 3, Val.vint 12, Val.vint 50⟩])).2).workouts :=
  createWorkout_not_atomic (initDatabase DB.empty) _ _ _ _ _
    (by simp) (by simp) ⟨_, List.mem_singleton_self _, rfl⟩

/-! ### Claim C5: fresh, monotonically increasing workout identifiers -/

/-- Claim C5: for every valid createWorkout input on a reachable store, the
returned identifier is the AUTOINCREMENT counter value — strictly greater
than the id of every existing workout row, hence fresh and unique — the
workouts table afterwards is exactly the old table plus one appended row
carrying the submitted name, date, duration and calories (all pre-existing
rows unchanged), and listWorkouts afterwards contains exactly one row with
the new identifier. -/
theorem createWorkout_fresh_id (db : DB) (hdb : Reachable db) (n d du c : Val)
    (exs : Option (List ExInput)) (hn : n ≠ Val.vnull) (hd : d ≠ Val.vnull)
    (hexs : ∀ l, exs = some l → ∀ ex ∈ l, ex.name ≠ Val.vnull) :
    (createWorkout db n d du c exs).1 = .ok db.nextWorkoutId ∧
    (∀ w ∈ db.workouts, w.id < db.nextWorkoutId) ∧
    ((createWorkout db n d du c exs).2).workouts
      = db.workouts ++ [⟨db.nextWorkoutId, n, d, du, c⟩] ∧
    (listWorkouts (createWorkout db n d du c exs).2).countP
        (fun w => w.id == db.nextWorkoutId) = 1 := by
  obtain ⟨-, hwf⟩ := reachable_inv hdb
  have hold : ∀ w ∈ db.workouts, w.id < db.nextWorkoutId := hwf.1
  have hcount : ∀ db2 : DB,
      db2.workouts = db.workouts ++ [⟨db.nextWorkoutId, n, d, du, c⟩] →
      (listWorkouts db2).countP (fun w => w.id == db.nextWorkoutId) = 1 := by
    intro db2 h2
    rw [listWorkouts, (List.perm_insertionSort byDateDesc db2.workouts).countP_eq,
      h2, List.countP_append]
    have hz : db.workouts.countP (fun w => w.id == db.nextWorkoutId) = 0 := by
      rw [List.countP_eq_zero]
      intro w hw
      simp only [beq_iff_eq]
      exact fun hh => absurd hh (Nat.ne_of_lt (hold w hw))
    rw [hz]
    simp [List.countP_cons]
  unfold createWorkout insertWorkout
  rw [if_neg hn, if_neg hd]
  cases exs with
  | none =>
    exact ⟨rfl, hold, rfl, hcount _ rfl⟩
  | some l =>
    rcases hE : insertExercises
        { db with
          workouts := db.workouts ++ [⟨db.nextWorkoutId, n, d, du, c⟩],
          nextWorkoutId := db.nextWorkoutId + 1 } db.nextWorkoutId l
      with ⟨r, db2⟩
    have hok := insertExercises_ok db.nextWorkoutId l
        { db with
          workouts := db.workouts ++ [⟨db.nextWorkoutId, n, d, du, c⟩],
          nextWorkoutId := db.nextWorkoutId + 1 } (hexs l rfl)
    have hW := insertExercises_workouts db.nextWorkoutId l
        { db with
          workouts := db.workouts ++ [⟨db.nextWorkoutId, n, d, du, c⟩],
          nextWorkoutId := db.nextWorkoutId + 1 }
    rw [hE] at hok hW
    simp only at hok hW
    subst hok
    exact ⟨by simp [hE], hold, by simp [hE, hW], by simp only [hE]; exact hcount db2 hW⟩

/-- Witness for C5: the spec's own scenario — "Leg Day", 2024-06-01, 45
minutes, 300 kcal, one "Squat" exercise — on the freshly initialized
store. -/
theorem createWorkout_fresh_id_witness :
    (createWorkout (initDatabase DB.empty) (Val.vtext "Leg Day")
        (Val.vtext "2024-06-01") (Val.vint 45) (Val.vint 300)
        (some [⟨Val.vtext "Squat", Val.vint 4, Val.vint 8, Val.vint 80⟩])).1
      = .ok (initDatabase DB.empty).nextWorkoutId ∧
    (∀ w ∈ (initDatabase DB.empty).workouts,
      w.id < (initDatabase DB.empty).nextWorkoutId) ∧
    ((createWorkout (initDatabase DB.empty) (Val.vtext "Leg Day")
        (Val.vtext "2024-06-01") (Val.vint 45) (Val.vint 300)
        (some [⟨Val.vtext "Squat", Val.vint 4, Val.vint 8, Val.vint 80⟩])).2).workouts
      = (initDatabase DB.empty).workouts ++
          [⟨(initDatabase DB.empty).nextWorkoutId, Val.vtext "Leg Day",
            Val.vtext "2024-06-01", Val.vint 45, Val.vint 300⟩] ∧
    (listWorkouts (createWorkout (initDatabase DB.empty) (Val.vtext "Leg Day")
        (Val.vtext "2024-06-01") (Val.vint 45) (Val.vint 300)
        (some [⟨Val.vtext "Squat", Val.vint 4, Val.vint 8, Val.vint 80⟩])).2).countP
        (fun w => w.id == (initDatabase DB.empty).nextWorkoutId) = 1 :=
  createWorkout_fresh_id (initDatabase DB.empty) ⟨[], rfl⟩ _ _ _ _ _
    (by simp) (by simp)
    (by
      intro l hl ex hex
      cases hl
      simp only [List.mem_singleton] at hex
      subst hex
      simp)

/-! ### Claim C6: the exercise rows created by createWorkout -/

/-- Counterexample to C6: a createWorkout supplying a list of N = 1 exercises
whose name is NULL does not end with exactly 1 Exercise row referencing the
new workout — the insert throws and zero Exercise rows exist afterwards
(and the operation does not succeed). -/
theorem createWorkout_exercise_rows_counterexample :
    ((createWorkout (initDatabase DB.empty) (Val.vtext "Treino C")
        (Val.vtext "2024-04-04") (Val.vint 30) (Val.vint 200)
        (some [⟨Val.vnull, Val.vint 3, Val.vint 12, Val.vint 50⟩])).2).exercises
      = [] ∧
    ([⟨Val.vnull, Val.vint 3, Val.vint 12, Val.vint 50⟩] : List ExInput).length
      = 1 :=
  ⟨rfl, rfl⟩

/-- Claim C6 as amended: for every createWorkout call on a reachable store
supplying N exercises — with valid (non-NULL) workout name and date and
every exercise name non-NULL — exactly N Exercise rows referencing the new
workout identifier exist afterwards, carrying the submitted field values in
submission order; and when the exercises argument is absent or not a
sequence, zero Exercise rows are created and the operation still succeeds. -/
theorem createWorkout_exercise_rows (db : DB) (hdb : Reachable db)
    (n d du c : Val) (exs : List ExInput)
    (hn : n ≠ Val.vnull) (hd : d ≠ Val.vnull)
    (hex : ∀ ex ∈ exs, ex.name ≠ Val.vnull) :
    (createWorkout db n d du c (some exs)).1 = .ok db.nextWorkoutId ∧
    (((createWorkout db n d du c (some exs)).2).exercises.filter
        (fun e => e.workoutId == db.nextWorkoutId)).map
        (fun e => (e.name, e.sets, e.reps, e.weight))
      = exs.map (fun ex => (ex.name, ex.sets, ex.reps, ex.weight)) ∧
    (((createWorkout db n d du c (some exs)).2).exercises.filter
        (fun e => e.workoutId == db.nextWorkoutId)).length = exs.length ∧
    (createWorkout db n d du c none).1 = .ok db.nextWorkoutId ∧
    ((createWorkout db n d du c none).2).exercises = db.exercises := by
  obtain ⟨-, hwf⟩ := reachable_inv hdb
  unfold createWorkout insertWorkout
  rw [if_neg hn, if_neg hd]
  rcases hE : insertExercises
      { db with
        workouts := db.workouts ++ [⟨db.nextWorkoutId, n, d, du, c⟩],
        nextWorkoutId := db.nextWorkoutId + 1 } db.nextWorkoutId exs
    with ⟨r, db2⟩
  have hok := insertExercises_ok db.nextWorkoutId exs
      { db with
        workouts := db.workouts ++ [⟨db.nextWorkoutId, n, d, du, c⟩],
        nextWorkoutId := db.nextWorkoutId + 1 } hex
  obtain ⟨news, hnews, hmap⟩ := insertExercises_rows db.nextWorkoutId exs
      { db with
        workouts := db.workouts ++ [⟨db.nextWorkoutId, n, d, du, c⟩],
        nextWorkoutId := db.nextWorkoutId + 1 } hex
  rw [hE] at hok hnews
  simp only at hok hnews
  subst hok
  have hnewwid : ∀ e ∈ news, e.workoutId = db.nextWorkoutId := by
    intro e he
    have h1 : (e.workoutId, e.name, e.sets, e.reps, e.weight)
        ∈ news.map (fun e => (e.workoutId, e.name, e.sets, e.reps, e.weight)) :=
      List.mem_map_of_mem _ he
    rw [hmap] at h1
    obtain ⟨ex, -, heq⟩ := List.mem_map.mp h1
    exact (congrArg Prod.fst heq).symm
  have hfilter : db2.exercises.filter (fun e => e.workoutId == db.nextWorkoutId)
      = news := by
    rw [hnews, List.filter_append]
    have h0 : db.exercises.filter (fun e => e.workoutId == db.nextWorkoutId)
        = [] := by
      rw [List.filter_eq_nil_iff]
      intro e he
      simp only [beq_iff_eq]
      exact fun hh => absurd hh (Nat.ne_of_lt (hwf.2 e he))
    rw [h0, List.nil_append, List.filter_eq_self.mpr]
    intro e he
    simp [hnewwid e he]
  have hfields : news.map (fun e => (e.name, e.sets, e.reps, e.weight))
      = exs.map (fun ex => (ex.name, ex.sets, ex.reps, ex.weight)) := by
    have := congrArg (List.map Prod.snd) hmap
    simpa [List.map_map, Function.comp] using this
  have hlen : news.length = exs.length := by
    have := congrArg List.length hmap
    simpa using this
  refine ⟨by simp [hE], ?_, ?_, rfl, rfl⟩
  · simp only [hE]
    rw [hfilter, hfields]
  · simp only [hE]
    rw [hfilter, hlen]

/-- Witness for C6 (amended): two valid exercises on the freshly
initialized store produce exactly the two matching rows, in order, and the
no-exercises variant creates none. -/
theorem createWorkout_exercise_rows_witness :
    (createWorkout (initDatabase DB.empty) (Val.vtext "Treino D")
        (Val.vtext "2024-02-02") (Val.vint 50) (Val.vint 400)
        (some [⟨Val.vtext "Supino", Val.vint 3, Val.vint 10, Val.vint 60⟩,
               ⟨Val.vtext "Remada", Val.vint 3, Val.vint 12, Val.vint 40⟩])).1
      = .ok (initDatabase DB.empty).nextWorkoutId ∧
    (((createWorkout (initDatabase DB.empty) (Val.vtext "Treino D")
        (Val.vtext "2024-02-02") (Val.vint 50) (Val.vint 400)
        (some [⟨Val.vtext "Supino", Val.vint 3, Val.vint 10, Val.vint 60⟩,
               ⟨Val.vtext "Remada", Val.vint 3, Val.vint 12, Val.vint 40⟩])).2).exercises.filter
        (fun e => e.workoutId == (initDatabase DB.empty).nextWorkoutId)).map
        (fun e => (e.name, e.sets, e.reps, e.weight))
      = ([⟨Val.vtext "Supino", Val.vint 3, Val.vint 10, Val.vint 60⟩,
          ⟨Val.vtext "Remada", Val.vint 3, Val.vint 12, Val.vint 40⟩] : List ExInput).map
          (fun ex => (ex.name, ex.sets, ex.reps, ex.weight)) ∧
    (((createWorkout (initDatabase DB.empty) (Val.vtext "Treino D")
        (Val.vtext "2024-02-02") (Val.vint 50) (Val.vint 400)
        (some [⟨Val.vtext "Supino", Val.vint 3, Val.vint 10, Val.vint 60⟩,
               ⟨Val.vtext "Remada", Val.vint 3, Val.vint 12, Val.vint 40⟩])).2).exercises.filter
        (fun e => e.workoutId == (initDatabase DB.empty).nextWorkoutId)).length
      = ([⟨Val.vtext "Supino", Val.vint 3, Val.vint 10, Val.vint 60⟩,
          ⟨Val.vtext "Remada", Val.vint 3, Val.vint 12, Val.vint 40⟩] : List ExInput).length ∧
    (createWorkout (initDatabase DB.empty) (Val.vtext "Treino D")
        (Val.vtext "2024-02-02") (Val.vint 50) (Val.vint 400) none).1
      = .ok (initDatabase DB.empty).nextWorkoutId ∧
    ((createWorkout (initDatabase DB.empty) (Val.vtext "Treino D")
        (Val.vtext "2024-02-02") (Val.vint 50) (Val.vint 400) none).2).exercises
      = (initDatabase DB.empty).exercises :=
  createWorkout_exercise_rows (initDatabase DB.empty) ⟨[], rfl⟩ _ _ _ _ _
    (by simp) (by simp)
    (by
      intro ex hex
      rcases List.mem_cons.mp hex with rfl | hex2
      · simp
      · simp only [List.mem_singleton] at hex2
        subst hex2
        simp)

/-! ### Claim C4: listWorkouts ordering -/

theorem byDateDesc_skip {x y : WorkoutRow} (h : ¬ byDateDesc x y) :
    y.date ≠ x.date := by
  intro heq
  exact h (by unfold byDateDesc; rw [heq]; exact valLe_refl _)

/-- Filtering one date class commutes with the ordered insertion: rows the
insertion passes over carry strictly greater dates, so they are outside the
class of the inserted row. -/
theorem filter_orderedInsert_date (d : Val) (x : WorkoutRow) :
    ∀ l : List WorkoutRow,
      (l.orderedInsert byDateDesc x).filter (fun w => w.date == d)
        = if x.date = d
          then x :: l.filter (fun w => w.date == d)
          else l.filter (fun w => w.date == d)
  | [] => by
    by_cases hxd : x.date = d
    · rw [if_pos hxd, List.orderedInsert_nil,
        List.filter_cons_of_pos (by simp [hxd])]
    · rw [if_neg hxd, List.orderedInsert_nil,
        List.filter_cons_of_neg (by simp [hxd])]
  | y :: ys => by
    by_cases hr : byDateDesc x y
    · rw [List.orderedInsert_of_le _ _ hr]
      by_cases hxd : x.date = d <;>
        simp [List.filter_cons, hxd]
    · have hyx : y.date ≠ x.date := byDateDesc_skip hr
      have step : (y :: ys).orderedInsert byDateDesc x
          = y :: ys.orderedInsert byDateDesc x := by
        simp [List.orderedInsert, hr]
      rw [step]
      by_cases hxd : x.date = d
      · have hyd : ¬ y.date = d := fun hh => hyx (hh.trans hxd.symm)
        rw [List.filter_cons_of_neg (by simp [hyd]),
          filter_orderedInsert_date d x ys, if_pos hxd, if_pos hxd,
          List.filter_cons_of_neg (by simp [hyd])]
      · by_cases hyd : y.date = d
        · rw [List.filter_cons_of_pos (by simp [hyd]),
            filter_orderedInsert_date d x ys, if_neg hxd, if_neg hxd,
            List.filter_cons_of_pos (by simp [hyd])]
        · rw [List.filter_cons_of_neg (by simp [hyd]),
            filter_orderedInsert_date d x ys, if_neg hxd, if_neg hxd,
            List.filter_cons_of_neg (by simp [hyd])]

/-- Stability of the sort behind `ORDER BY date DESC`: within each date
class the output preserves the table (insertion) order exactly. -/
theorem filter_insertionSort_date (d : Val) :
    ∀ l : List WorkoutRow,
      (l.insertionSort byDateDesc).filter (fun w => w.date == d)
        = l.filter (fun w => w.date == d)
  | [] => rfl
  | x :: l => by
    rw [List.insertionSort, filter_orderedInsert_date d x
      (l.insertionSort byDateDesc)]
    by_cases hxd : x.date = d
    · rw [if_pos hxd, filter_insertionSort_date d l,
        List.filter_cons_of_pos (by simp [hxd])]
    · rw [if_neg hxd, filter_insertionSort_date d l,
        List.filter_cons_of_neg (by simp [hxd])]

/-- Counterexample to C4: with two workouts of equal date inserted as ids
1 and 2, listWorkouts returns them in insertion order [1, 2] — the stable
sort preserves table order on ties — not in the claimed reversed
(id-descending) order [2, 1]. -/
theorem listWorkouts_tie_counterexample :
    dbTie.workouts.map (fun w => w.date)
      = [Val.vtext "2024-01-01", Val.vtext "2024-01-01"] ∧
    (listWorkouts dbTie).map (fun w => w.id) = [1, 2] ∧
    (listWorkouts dbTie).map (fun w => w.id) ≠ [2, 1] := by
  refine ⟨rfl, by decide, by decide⟩

/-- Claim C4 as amended: listWorkouts always returns a permutation of the
whole workouts table, sorted by date descending; rows with equal dates keep
their table (insertion) order — ids ascending, not reversed; and on the
claim's example (2024-01-01, 2024-01-03, 2024-01-02) the output order is
[01-03, 01-02, 01-01]. -/
theorem listWorkouts_sorted (db : DB) :
    (listWorkouts db).Perm db.workouts ∧
    List.Sorted byDateDesc (listWorkouts db) ∧
    (∀ d : Val, (listWorkouts db).filter (fun w => w.date == d)
        = db.workouts.filter (fun w => w.date == d)) ∧
    (listWorkouts dbThreeDates).map (fun w => w.date)
      = [Val.vtext "2024-01-03", Val.vtext "2024-01-02", Val.vtext "2024-01-01"] := by
  refine ⟨List.perm_insertionSort byDateDesc db.workouts,
    List.sorted_insertionSort byDateDesc db.workouts,
    fun d => filter_insertionSort_date d db.workouts, by decide⟩

/-! ### Claim C1: the stats aggregation -/

theorem sumAgg_toCal (rows : List WorkoutRow) : toCal (sumAgg rows) = calSum rows := by
  unfold sumAgg
  by_cases h : (rows.filterMap calOf).isEmpty
  · rw [if_pos h]
    unfold calSum
    rw [List.isEmpty_iff.mp h]
    rfl
  · rw [if_neg h]
    rfl

/-- Splitting a calorie total along a Boolean predicate. -/
theorem calSum_split (p : WorkoutRow → Bool) :
    ∀ rows : List WorkoutRow,
      calSum rows = calSum (rows.filter p) + calSum (rows.filter (fun w => !(p w)))
  | [] => rfl
  | w :: ws => by
    have ih := calSum_split p ws
    by_cases hp : p w <;>
      cases hc : calOf w <;>
        simp [calSum, List.filterMap_cons, List.filter_cons, hp, hc] at ih ⊢ <;>
        omega

/-- Fibering a calorie total over a duplicate-free list of dates covering
every row: per-date group totals add up to the overall total. -/
theorem calSum_fibers :
    ∀ (ds : List Val) (rows : List WorkoutRow), ds.Nodup →
      (∀ w ∈ rows, w.date ∈ ds) →
      (ds.map (fun d => calSum (rows.filter (fun w => w.date = d)))).sum
        = calSum rows
  | [], rows, _, hall => by
    have hnil : rows = [] := by
      cases rows with
      | nil => rfl
      | cons w ws => exact absurd (hall w (List.mem_cons_self _ _)) (List.not_mem_nil _)
    subst hnil
    rfl
  | d :: ds, rows, hnd, hall => by
    have hdsn : ds.Nodup := hnd.of_cons
    have hdd : d ∉ ds := (List.nodup_cons.mp hnd).1
    have hsplit := calSum_split (fun w => decide (w.date = d)) rows
    rw [List.map_cons, List.sum_cons]
    have htail : ∀ d' ∈ ds,
        calSum (rows.filter (fun w => w.date = d'))
          = calSum ((rows.filter (fun w => !(decide (w.date = d)))).filter
              (fun w => w.date = d')) := by
      intro d' hd'
      have hne : d' ≠ d := fun hh => hdd (hh ▸ hd')
      have hfe : rows.filter (fun w => decide (w.date = d'))
          = (rows.filter (fun w => !(decide (w.date = d)))).filter
              (fun w => decide (w.date = d')) := by
        rw [List.filter_filter]
        apply List.filter_congr
        intro w _
        by_cases hw : w.date = d'
        · have hwd : ¬ w.date = d := fun hh => hne (hw.symm.trans hh)
          simp [hw, hwd, hne]
        · simp [hw]
      exact congrArg calSum hfe
    rw [List.map_congr_left htail]
    rw [calSum_fibers ds (rows.filter (fun w => !(decide (w.date = d)))) hdsn
      (by
        intro w hw
        obtain ⟨hwr, hwp⟩ := List.mem_filter.mp hw
        rcases List.mem_cons.mp (hall w hwr) with hh | hh
        · simp [hh] at hwp
        · exact hh)]
    omega

/-- Counterexample to C1: on the empty (freshly initialized) store, the
stats query returns the empty list — zero entries, not 7 entries with
calories 0: dates without workouts are simply absent from the
`GROUP BY` output. -/
theorem computeStats_empty_counterexample :
    computeStats (initDatabase DB.empty) (Val.vtext "2026-10-04") = [] ∧
    (computeStats (initDatabase DB.empty) (Val.vtext "2026-10-04")).length ≠ 7 :=
  ⟨rfl, by decide⟩

/-- Claim C1 as amended: the stats operation returns one entry per distinct
date among the workout rows whose date is ≥ the cutoff `date('now','-7
days')` — a window that starts seven (not six) days before today and has no
upper bound — ordered by date ascending without duplicates; each entry's
calories are the SQL SUM over exactly the rows of that date; dates with no
matching workout do not appear (an empty store yields an empty list); and
the entries' totals sum to the total calories of all rows in the window. -/
theorem computeStats_spec (db : DB) (cutoff : Val) :
    List.Sorted valAsc ((computeStats db cutoff).map Prod.fst) ∧
    ((computeStats db cutoff).map Prod.fst).Nodup ∧
    (∀ dc : Val × Val, dc ∈ computeStats db cutoff ↔
      ((∃ w ∈ db.workouts, sqlGe w.date cutoff = true ∧ w.date = dc.1) ∧
        dc.2 = sumAgg ((db.workouts.filter (fun w => sqlGe w.date cutoff)).filter
            (fun w => w.date = dc.1)))) ∧
    ((computeStats db cutoff).map (fun e => toCal e.2)).sum
      = calSum (db.workouts.filter (fun w => sqlGe w.date cutoff)) := by
  have hmain : computeStats db cutoff
      = (((db.workouts.filter (fun w => sqlGe w.date cutoff)).map
            (fun w => w.date)).dedup.insertionSort valAsc).map
          (fun d => (d, sumAgg ((db.workouts.filter
            (fun w => sqlGe w.date cutoff)).filter (fun w => w.date = d)))) := rfl
  set rows := db.workouts.filter (fun w => sqlGe w.date cutoff) with hrows
  set dates := (rows.map (fun w => w.date)).dedup.insertionSort valAsc with hdates
  have hfst : (Prod.fst ∘ fun d : Val =>
      (d, sumAgg (rows.filter (fun w => w.date = d)))) = id := rfl
  refine ⟨?_, ?_, ?_, ?_⟩
  · rw [hmain, List.map_map, hfst, List.map_id]
    exact List.sorted_insertionSort valAsc _
  · rw [hmain, List.map_map, hfst, List.map_id]
    exact ((List.perm_insertionSort valAsc _).nodup_iff).mpr (List.nodup_dedup _)
  · intro dc
    rw [hmain]
    constructor
    · intro hmem
      obtain ⟨d, hd, heq⟩ := List.mem_map.mp hmem
      subst heq
      have hd2 : d ∈ (rows.map (fun w => w.date)).dedup :=
        ((List.perm_insertionSort valAsc _).mem_iff).mp hd
      obtain ⟨w, hw, hwd⟩ := List.mem_map.mp (List.mem_dedup.mp hd2)
      obtain ⟨hwmem, hwge⟩ := List.mem_filter.mp hw
      exact ⟨⟨w, hwmem, hwge, hwd⟩, rfl⟩
    · rintro ⟨⟨w, hwmem, hwge, hwd⟩, hsum⟩
      have hw : w ∈ rows := List.mem_filter.mpr ⟨hwmem, hwge⟩
      have hd3 : dc.1 ∈ rows.map (fun w => w.date) :=
        hwd ▸ List.mem_map_of_mem _ hw
      have hd : dc.1 ∈ dates :=
        ((List.perm_insertionSort valAsc _).mem_iff).mpr (List.mem_dedup.mpr hd3)
      refine List.mem_map.mpr ⟨dc.1, hd, ?_⟩
      exact Prod.ext rfl hsum.symm
  · rw [hmain, List.map_map]
    have hcomp : ((fun e : Val × Val => toCal e.2) ∘ fun d : Val =>
        (d, sumAgg (rows.filter (fun w => w.date = d))))
        = fun d => calSum (rows.filter (fun w => w.date = d)) := by
      funext d
      exact sumAgg_toCal _
    rw [hcomp, ((List.perm_insertionSort valAsc _).map _).sum_eq]
    exact calSum_fibers _ rows (List.nodup_dedup _)
      (fun w hw => List.mem_dedup.mpr (List.mem_map_of_mem _ hw))
